import Mathlib

/-!
Verification development for the `atomic-swap` repository.

The file shallowly embeds, in Lean 4:
  * the `SwapFactory` escrow contract (`ethereum/contracts/SwapFactory.sol`):
    its `Stage` enum, the `Swap` struct, and the four mutating entry points
    `new_swap`, `set_ready`, `claim` and `refund`, with EVM state modelled as
    a map from swap IDs to stages and events/transfers returned explicitly;
  * the network message codec (`net/message.go`): the tagged-union wire
    format, per-type JSON marshalling/unmarshalling, `Encode` and
    `DecodeMessage`;
  * the XMR-maker ("Bob") swap-state helpers (`protocol/bob/swap_state.go`):
    `checkContract`, `tryClaim` and `ProtocolExited`, as pure functions of
    the data they consult.

Machine integers are modelled as `Nat` (uint256 arithmetic in Solidity 0.8
reverts on overflow, so the success paths coincide with unbounded `Nat`
arithmetic; the overflow reverts of `new_swap` are made explicit).
`keccak256 ∘ abi.encode` and the `mulVerify` secp256k1 check are taken as
parameters: nothing below depends on their definitions.
-/

namespace AtomicSwap

/-! ## Escrow contract: `ethereum/contracts/SwapFactory.sol` -/

/-- `enum Stage { INVALID, PENDING, READY, COMPLETED }` -/
inductive Stage where
  | INVALID
  | PENDING
  | READY
  | COMPLETED
deriving DecidableEq, Repr

/-- `struct Swap` of `SwapFactory.sol`: owner, claimer, the two keccak'd
public keys, the two timeouts, the escrowed value and the nonce.
Addresses and `bytes32`/`uint256` words are modelled as `Nat`. -/
structure Swap where
  owner : Nat
  claimer : Nat
  pubKeyClaim : Nat
  pubKeyRefund : Nat
  timeout0 : Nat
  timeout1 : Nat
  value : Nat
  nonce : Nat
deriving DecidableEq, Repr

/-- Contract storage: `mapping(bytes32 => Stage) public swaps`
(a Solidity mapping defaults every absent key to `INVALID`). -/
structure EthState where
  swaps : Nat → Stage

/-- The four events declared by the contract. -/
inductive ContractEvent where
  | NewE (swapID claimKey refundKey timeout0 timeout1 : Nat)
  | ReadyE (swapID : Nat)
  | ClaimedE (swapID s : Nat)
  | RefundedE (swapID s : Nat)
deriving DecidableEq, Repr

/-- An ETH transfer performed by a call: (recipient, amount in wei). -/
abbrev Transfer := Nat × Nat

/-- Result of a successful mutating call: the new storage, the events
emitted, and the transfers performed.  A revert discards all three. -/
structure CallResult where
  state : EthState
  events : List ContractEvent
  transfers : List Transfer

/-- Storage update `swaps[swapID] = st`. -/
def EthState.store (σ : EthState) (swapID : Nat) (st : Stage) : EthState :=
  ⟨fun id => if id = swapID then st else σ.swaps id⟩

/-- The word size of the EVM; `uint256` arithmetic in Solidity 0.8 reverts
once a result reaches `2 ^ 256`. -/
def uintMax : Nat := 2 ^ 256

/-- `new_swap(_pubKeyClaim, _pubKeyRefund, _claimer, _timeoutDuration, _nonce)`.
`keccakAbi` stands for `keccak256(abi.encode(·))`; `sender`, `now` and
`msgValue` are `msg.sender`, `block.timestamp` and `msg.value`.
Returns the swap ID alongside the call result. -/
def new_swap (keccakAbi : Swap → Nat) (sender now msgValue : Nat) (σ : EthState)
    (pubKeyClaim pubKeyRefund claimer timeoutDuration nonce : Nat) :
    Except String (Nat × CallResult) :=
  -- checked uint256 arithmetic: `block.timestamp + _timeoutDuration` and
  -- `block.timestamp + (_timeoutDuration * 2)` revert on overflow
  if uintMax ≤ now + timeoutDuration then .error "arithmetic overflow"
  else if uintMax ≤ timeoutDuration * 2 then .error "arithmetic overflow"
  else if uintMax ≤ now + timeoutDuration * 2 then .error "arithmetic overflow"
  -- require(swaps[swapID] == Stage.INVALID), where
  -- swapID = keccak256(abi.encode(swap)) for the struct built above
  else if ¬ (σ.swaps (keccakAbi ⟨sender, claimer, pubKeyClaim, pubKeyRefund,
      now + timeoutDuration, now + timeoutDuration * 2, msgValue, nonce⟩) = Stage.INVALID) then
    .error "swap already exists"
  else
    .ok (keccakAbi ⟨sender, claimer, pubKeyClaim, pubKeyRefund,
        now + timeoutDuration, now + timeoutDuration * 2, msgValue, nonce⟩,
      { state := σ.store (keccakAbi ⟨sender, claimer, pubKeyClaim, pubKeyRefund,
          now + timeoutDuration, now + timeoutDuration * 2, msgValue, nonce⟩) Stage.PENDING
        events := [.NewE (keccakAbi ⟨sender, claimer, pubKeyClaim, pubKeyRefund,
          now + timeoutDuration, now + timeoutDuration * 2, msgValue, nonce⟩)
          pubKeyClaim pubKeyRefund (now + timeoutDuration) (now + timeoutDuration * 2)]
        transfers := [] })

/-- `set_ready(Swap memory _swap)`. -/
def set_ready (keccakAbi : Swap → Nat) (sender : Nat) (σ : EthState)
    (swap : Swap) : Except String CallResult :=
  -- require(swaps[swapID] == Stage.PENDING, "swap is not in PENDING state")
  if ¬ (σ.swaps (keccakAbi swap) = Stage.PENDING) then .error "swap is not in PENDING state"
  -- require(_swap.owner == msg.sender, "only the swap owner can call set_ready")
  else if ¬ (swap.owner = sender) then .error "only the swap owner can call set_ready"
  else
    .ok { state := σ.store (keccakAbi swap) Stage.READY
          events := [.ReadyE (keccakAbi swap)]
          transfers := [] }

/-- `claim(Swap memory _swap, bytes32 _s)`.  `mulVerify` is the pure
secp256k1 check of the `Secp256k1` library (`verifySecret` requires
`mulVerify(uint256(_s), uint256(pubKey))`). -/
def claim (keccakAbi : Swap → Nat) (mulVerify : Nat → Nat → Bool)
    (sender now : Nat) (σ : EthState) (swap : Swap) (s : Nat) :
    Except String CallResult :=
  -- require(swapStage != Stage.COMPLETED && swapStage != Stage.INVALID, ...)
  if ¬ (σ.swaps (keccakAbi swap) ≠ Stage.COMPLETED ∧
      σ.swaps (keccakAbi swap) ≠ Stage.INVALID) then
    .error "swap is already completed"
  -- require(msg.sender == _swap.claimer, "only claimer can claim!")
  else if ¬ (sender = swap.claimer) then .error "only claimer can claim!"
  -- require((block.timestamp >= _swap.timeout_0 || swapStage == Stage.READY), ...)
  else if ¬ (swap.timeout0 ≤ now ∨ σ.swaps (keccakAbi swap) = Stage.READY) then
    .error "too early to claim!"
  -- require(block.timestamp < _swap.timeout_1, "too late to claim!")
  else if ¬ (now < swap.timeout1) then .error "too late to claim!"
  -- verifySecret(_s, _swap.pubKeyClaim)
  else if ¬ (mulVerify s swap.pubKeyClaim = true) then
    .error "provided secret does not match the expected public key"
  else
    .ok { state := σ.store (keccakAbi swap) Stage.COMPLETED
          events := [.ClaimedE (keccakAbi swap) s]
          transfers := [(swap.claimer, swap.value)] }

/-- `refund(Swap memory _swap, bytes32 _s)`. -/
def refund (keccakAbi : Swap → Nat) (mulVerify : Nat → Nat → Bool)
    (sender now : Nat) (σ : EthState) (swap : Swap) (s : Nat) :
    Except String CallResult :=
  -- require(swapStage != Stage.COMPLETED && swapStage != Stage.INVALID, ...)
  if ¬ (σ.swaps (keccakAbi swap) ≠ Stage.COMPLETED ∧
      σ.swaps (keccakAbi swap) ≠ Stage.INVALID) then
    .error "swap is already completed"
  -- require(msg.sender == _swap.owner, "refund must be called by the swap owner")
  else if ¬ (sender = swap.owner) then .error "refund must be called by the swap owner"
  -- require(block.timestamp >= _swap.timeout_1 ||
  --         (block.timestamp < _swap.timeout_0 && swapStage != Stage.READY), ...)
  else if ¬ (swap.timeout1 ≤ now ∨
      (now < swap.timeout0 ∧ σ.swaps (keccakAbi swap) ≠ Stage.READY)) then
    .error "it's the counterparty's turn, unable to refund, try again later"
  -- verifySecret(_s, _swap.pubKeyRefund)
  else if ¬ (mulVerify s swap.pubKeyRefund = true) then
    .error "provided secret does not match the expected public key"
  else
    .ok { state := σ.store (keccakAbi swap) Stage.COMPLETED
          events := [.RefundedE (keccakAbi swap) s]
          transfers := [(swap.owner, swap.value)] }

/-- On the four-valued `Stage` enum, "neither COMPLETED nor INVALID" (the
guard the contract checks) is the same as "PENDING or READY" (the wording
of the specification). -/
theorem stage_not_completed_invalid_iff (st : Stage) :
    (st ≠ Stage.COMPLETED ∧ st ≠ Stage.INVALID) ↔
      (st = Stage.PENDING ∨ st = Stage.READY) := by
  cases st <;> simp

/-- C1: `refund(swap, s)` reverts unless the stored stage is Pending or
Ready, the caller is the swap's owner, the time condition
(`now ≥ t1` or (`now < t0` and stage ≠ Ready)) holds and
`mulVerify(s, swap.pubKeyRefund)` holds; when all conditions hold it
transfers the swap's value to the owner, sets the stage to Completed and
emits `Refunded(swapID, s)`; and for every time `t` with `t0 ≤ t < t1` a
refund attempt is rejected when the stage is Ready. -/
theorem refund_correct (keccakAbi : Swap → Nat) (mulVerify : Nat → Nat → Bool)
    (sender now : Nat) (σ : EthState) (swap : Swap) (s : Nat) :
    ((∃ e, refund keccakAbi mulVerify sender now σ swap s = Except.error e) ↔
      ¬ ((σ.swaps (keccakAbi swap) = Stage.PENDING ∨ σ.swaps (keccakAbi swap) = Stage.READY) ∧
          sender = swap.owner ∧
          (swap.timeout1 ≤ now ∨ (now < swap.timeout0 ∧ σ.swaps (keccakAbi swap) ≠ Stage.READY)) ∧
          mulVerify s swap.pubKeyRefund = true)) ∧
    (((σ.swaps (keccakAbi swap) = Stage.PENDING ∨ σ.swaps (keccakAbi swap) = Stage.READY) ∧
        sender = swap.owner ∧
        (swap.timeout1 ≤ now ∨ (now < swap.timeout0 ∧ σ.swaps (keccakAbi swap) ≠ Stage.READY)) ∧
        mulVerify s swap.pubKeyRefund = true) →
      refund keccakAbi mulVerify sender now σ swap s =
        Except.ok ⟨σ.store (keccakAbi swap) Stage.COMPLETED,
          [ContractEvent.RefundedE (keccakAbi swap) s],
          [(swap.owner, swap.value)]⟩) ∧
    (∀ t, swap.timeout0 ≤ t → t < swap.timeout1 → σ.swaps (keccakAbi swap) = Stage.READY →
      ∃ e, refund keccakAbi mulVerify sender t σ swap s = Except.error e) := by
  have hsucc :
      ((σ.swaps (keccakAbi swap) = Stage.PENDING ∨ σ.swaps (keccakAbi swap) = Stage.READY) ∧
        sender = swap.owner ∧
        (swap.timeout1 ≤ now ∨ (now < swap.timeout0 ∧ σ.swaps (keccakAbi swap) ≠ Stage.READY)) ∧
        mulVerify s swap.pubKeyRefund = true) →
      refund keccakAbi mulVerify sender now σ swap s =
        Except.ok ⟨σ.store (keccakAbi swap) Stage.COMPLETED,
          [ContractEvent.RefundedE (keccakAbi swap) s],
          [(swap.owner, swap.value)]⟩ := by
    rintro ⟨h1, h2, h3, h4⟩
    unfold refund
    rw [if_neg (not_not_intro ((stage_not_completed_invalid_iff _).mpr h1)),
      if_neg (not_not_intro h2), if_neg (not_not_intro h3), if_neg (not_not_intro h4)]
  have herr : ∀ tm : Nat,
      ¬ ((σ.swaps (keccakAbi swap) = Stage.PENDING ∨ σ.swaps (keccakAbi swap) = Stage.READY) ∧
          sender = swap.owner ∧
          (swap.timeout1 ≤ tm ∨ (tm < swap.timeout0 ∧ σ.swaps (keccakAbi swap) ≠ Stage.READY)) ∧
          mulVerify s swap.pubKeyRefund = true) →
      ∃ e, refund keccakAbi mulVerify sender tm σ swap s = Except.error e := by
    intro tm hnC
    unfold refund
    by_cases h1 : σ.swaps (keccakAbi swap) ≠ Stage.COMPLETED ∧ σ.swaps (keccakAbi swap) ≠ Stage.INVALID
    · rw [if_neg (not_not_intro h1)]
      by_cases h2 : sender = swap.owner
      · rw [if_neg (not_not_intro h2)]
        by_cases h3 : swap.timeout1 ≤ tm ∨ (tm < swap.timeout0 ∧ σ.swaps (keccakAbi swap) ≠ Stage.READY)
        · rw [if_neg (not_not_intro h3)]
          by_cases h4 : mulVerify s swap.pubKeyRefund = true
          · exact absurd ⟨(stage_not_completed_invalid_iff _).mp h1, h2, h3, h4⟩ hnC
          · exact ⟨_, by rw [if_pos h4]⟩
        · exact ⟨_, by rw [if_pos h3]⟩
      · exact ⟨_, by rw [if_pos h2]⟩
    · exact ⟨_, by rw [if_pos h1]⟩
  refine ⟨⟨?_, herr now⟩, hsucc, ?_⟩
  · rintro ⟨e, he⟩ hC
    rw [hsucc hC] at he
    exact Except.noConfusion he
  · intro t ht0 ht1 hready
    refine herr t ?_
    rintro ⟨-, -, h3, -⟩
    rcases h3 with h | ⟨h, hne⟩
    · omega
    · exact hne hready

/-- C1 witness: a concrete successful refund call, instantiating
`refund_correct` at `now = 20 ≥ t1 = 10` with stage PENDING. -/
theorem refund_correct_witness :
    refund (fun _ => 0) (fun _ _ => true) 1 20 ⟨fun _ => Stage.PENDING⟩
        ⟨1, 2, 3, 4, 5, 10, 7, 8⟩ 9 =
      Except.ok ⟨EthState.store ⟨fun _ => Stage.PENDING⟩ 0 Stage.COMPLETED,
        [ContractEvent.RefundedE 0 9], [(1, 7)]⟩ :=
  (refund_correct (fun _ => 0) (fun _ _ => true) 1 20 ⟨fun _ => Stage.PENDING⟩
      ⟨1, 2, 3, 4, 5, 10, 7, 8⟩ 9).2.1
    ⟨Or.inl rfl, rfl, Or.inl (by decide), rfl⟩

/-- C2: `claim(swap, s)` reverts unless the stored stage is Pending or
Ready, the caller is the swap's claimer, `now < t1`, either the stage is
Ready or `now ≥ t0`, and `mulVerify(s, swap.pubKeyClaim)` holds; when all
conditions hold it transfers the swap's value to the claimer, sets the
stage to Completed and emits `Claimed(swapID, s)` carrying the scalar `s`. -/
theorem claim_correct (keccakAbi : Swap → Nat) (mulVerify : Nat → Nat → Bool)
    (sender now : Nat) (σ : EthState) (swap : Swap) (s : Nat) :
    ((∃ e, claim keccakAbi mulVerify sender now σ swap s = Except.error e) ↔
      ¬ ((σ.swaps (keccakAbi swap) = Stage.PENDING ∨ σ.swaps (keccakAbi swap) = Stage.READY) ∧
          sender = swap.claimer ∧
          now < swap.timeout1 ∧
          (σ.swaps (keccakAbi swap) = Stage.READY ∨ swap.timeout0 ≤ now) ∧
          mulVerify s swap.pubKeyClaim = true)) ∧
    (((σ.swaps (keccakAbi swap) = Stage.PENDING ∨ σ.swaps (keccakAbi swap) = Stage.READY) ∧
        sender = swap.claimer ∧
        now < swap.timeout1 ∧
        (σ.swaps (keccakAbi swap) = Stage.READY ∨ swap.timeout0 ≤ now) ∧
        mulVerify s swap.pubKeyClaim = true) →
      claim keccakAbi mulVerify sender now σ swap s =
        Except.ok ⟨σ.store (keccakAbi swap) Stage.COMPLETED,
          [ContractEvent.ClaimedE (keccakAbi swap) s],
          [(swap.claimer, swap.value)]⟩) := by
  have hsucc :
      ((σ.swaps (keccakAbi swap) = Stage.PENDING ∨ σ.swaps (keccakAbi swap) = Stage.READY) ∧
        sender = swap.claimer ∧
        now < swap.timeout1 ∧
        (σ.swaps (keccakAbi swap) = Stage.READY ∨ swap.timeout0 ≤ now) ∧
        mulVerify s swap.pubKeyClaim = true) →
      claim keccakAbi mulVerify sender now σ swap s =
        Except.ok ⟨σ.store (keccakAbi swap) Stage.COMPLETED,
          [ContractEvent.ClaimedE (keccakAbi swap) s],
          [(swap.claimer, swap.value)]⟩ := by
    rintro ⟨h1, h2, h3, h4, h5⟩
    unfold claim
    rw [if_neg (not_not_intro ((stage_not_completed_invalid_iff _).mpr h1)),
      if_neg (not_not_intro h2), if_neg (not_not_intro h4.symm), if_neg (not_not_intro h3),
      if_neg (not_not_intro h5)]
  refine ⟨⟨?_, ?_⟩, hsucc⟩
  · rintro ⟨e, he⟩ hC
    rw [hsucc hC] at he
    exact Except.noConfusion he
  · intro hnC
    unfold claim
    by_cases h1 : σ.swaps (keccakAbi swap) ≠ Stage.COMPLETED ∧ σ.swaps (keccakAbi swap) ≠ Stage.INVALID
    · rw [if_neg (not_not_intro h1)]
      by_cases h2 : sender = swap.claimer
      · rw [if_neg (not_not_intro h2)]
        by_cases h4 : swap.timeout0 ≤ now ∨ σ.swaps (keccakAbi swap) = Stage.READY
        · rw [if_neg (not_not_intro h4)]
          by_cases h3 : now < swap.timeout1
          · rw [if_neg (not_not_intro h3)]
            by_cases h5 : mulVerify s swap.pubKeyClaim = true
            · exact absurd ⟨(stage_not_completed_invalid_iff _).mp h1, h2, h3, h4.symm, h5⟩ hnC
            · exact ⟨_, by rw [if_pos h5]⟩
          · exact ⟨_, by rw [if_pos h3]⟩
        · exact ⟨_, by rw [if_pos h4]⟩
      · exact ⟨_, by rw [if_pos h2]⟩
    · exact ⟨_, by rw [if_pos h1]⟩

/-- C2 witness: a concrete successful claim call, instantiating
`claim_correct` at stage READY with `now = 7 < t1 = 10`. -/
theorem claim_correct_witness :
    claim (fun _ => 0) (fun _ _ => true) 2 7 ⟨fun _ => Stage.READY⟩
        ⟨1, 2, 3, 4, 5, 10, 7, 8⟩ 9 =
      Except.ok ⟨EthState.store ⟨fun _ => Stage.READY⟩ 0 Stage.COMPLETED,
        [ContractEvent.ClaimedE 0 9], [(2, 7)]⟩ :=
  (claim_correct (fun _ => 0) (fun _ _ => true) 2 7 ⟨fun _ => Stage.READY⟩
      ⟨1, 2, 3, 4, 5, 10, 7, 8⟩ 9).2
    ⟨Or.inr rfl, rfl, by decide, Or.inl rfl, rfl⟩

/-- C5: a successful `new_swap` call with timeout duration `d` builds a swap
struct whose `timeout_0` is `block.timestamp + d` and whose `timeout_1` is
`block.timestamp + d * 2`, returns `keccak256(abi.encode(swap))` as the
swap ID, and emits a `New` event carrying the swap ID, `pubKeyClaim`,
`pubKeyRefund`, `t0` and `t1`.  The hypotheses are exactly the conditions
under which the call does not revert: the checked uint256 additions do not
overflow and the computed swap ID is not already in use. -/
theorem new_swap_correct (keccakAbi : Swap → Nat) (sender now msgValue : Nat)
    (σ : EthState) (pkc pkr cl d n : Nat)
    (h1 : now + d < uintMax) (h2 : d * 2 < uintMax) (h3 : now + d * 2 < uintMax)
    (hInv : σ.swaps (keccakAbi ⟨sender, cl, pkc, pkr, now + d, now + d * 2, msgValue, n⟩) =
      Stage.INVALID) :
    new_swap keccakAbi sender now msgValue σ pkc pkr cl d n =
      Except.ok
        (keccakAbi ⟨sender, cl, pkc, pkr, now + d, now + d * 2, msgValue, n⟩,
          ⟨σ.store (keccakAbi ⟨sender, cl, pkc, pkr, now + d, now + d * 2, msgValue, n⟩)
              Stage.PENDING,
            [ContractEvent.NewE
              (keccakAbi ⟨sender, cl, pkc, pkr, now + d, now + d * 2, msgValue, n⟩)
              pkc pkr (now + d) (now + d * 2)],
            []⟩) := by
  unfold new_swap
  rw [if_neg (Nat.not_le.mpr h1), if_neg (Nat.not_le.mpr h2), if_neg (Nat.not_le.mpr h3),
    if_neg (not_not_intro hInv)]

/-- C5 witness: a concrete successful `new_swap` call, instantiating
`new_swap_correct` at `now = 100`, `d = 30`. -/
theorem new_swap_correct_witness :
    new_swap (fun _ => 5) 1 100 7 ⟨fun _ => Stage.INVALID⟩ 3 4 2 30 8 =
      Except.ok (5,
        ⟨EthState.store ⟨fun _ => Stage.INVALID⟩ 5 Stage.PENDING,
          [ContractEvent.NewE 5 3 4 130 160], []⟩) :=
  new_swap_correct (fun _ => 5) 1 100 7 ⟨fun _ => Stage.INVALID⟩ 3 4 2 30 8
    (by norm_num [uintMax]) (by norm_num [uintMax]) (by norm_num [uintMax]) rfl

/-- C10: a `new_swap` call whose parameters hash to a swap ID already
present with a stage other than INVALID reverts (an Except error models a
full EVM revert, so the mapping entry is unchanged): an existing swap can
never be overwritten or reset to Pending. -/
theorem new_swap_no_overwrite (keccakAbi : Swap → Nat) (sender now msgValue : Nat)
    (σ : EthState) (pkc pkr cl d n : Nat)
    (hne : σ.swaps (keccakAbi ⟨sender, cl, pkc, pkr, now + d, now + d * 2, msgValue, n⟩) ≠
      Stage.INVALID) :
    ∃ e, new_swap keccakAbi sender now msgValue σ pkc pkr cl d n = Except.error e := by
  unfold new_swap
  by_cases h1 : uintMax ≤ now + d
  · exact ⟨_, by rw [if_pos h1]⟩
  · rw [if_neg h1]
    by_cases h2 : uintMax ≤ d * 2
    · exact ⟨_, by rw [if_pos h2]⟩
    · rw [if_neg h2]
      by_cases h3 : uintMax ≤ now + d * 2
      · exact ⟨_, by rw [if_pos h3]⟩
      · rw [if_neg h3]
        exact ⟨_, by rw [if_pos hne]⟩

/-- C10 witness: a concrete call colliding with an existing PENDING swap,
instantiating `new_swap_no_overwrite`. -/
theorem new_swap_no_overwrite_witness :
    ∃ e, new_swap (fun _ => 5) 1 100 7 ⟨fun _ => Stage.PENDING⟩ 3 4 2 30 8 =
      Except.error e :=
  new_swap_no_overwrite (fun _ => 5) 1 100 7 ⟨fun _ => Stage.PENDING⟩ 3 4 2 30 8
    (by decide)

/-- C6: the stage stored for any swap ID changes only along the allowed
transitions.  `new_swap` changes a stage only from INVALID to PENDING;
`set_ready` reverts unless the caller is the owner and the stage is
PENDING, on success emits `Ready(swapID)` and changes a stage only from
PENDING to READY; `claim` and `refund` change a stage only from PENDING or
READY to COMPLETED.  No contract operation performs any other change. -/
theorem stage_transitions_only (keccakAbi : Swap → Nat) (mulVerify : Nat → Nat → Bool)
    (sender now msgValue : Nat) (σ : EthState) :
    (∀ pkc pkr cl d n out, new_swap keccakAbi sender now msgValue σ pkc pkr cl d n =
        Except.ok out →
      ∀ id, out.2.state.swaps id = σ.swaps id ∨
        (σ.swaps id = Stage.INVALID ∧ out.2.state.swaps id = Stage.PENDING)) ∧
    (∀ swap : Swap,
      ((∃ e, set_ready keccakAbi sender σ swap = Except.error e) ↔
        ¬ (σ.swaps (keccakAbi swap) = Stage.PENDING ∧ swap.owner = sender)) ∧
      (σ.swaps (keccakAbi swap) = Stage.PENDING ∧ swap.owner = sender →
        set_ready keccakAbi sender σ swap =
          Except.ok ⟨σ.store (keccakAbi swap) Stage.READY,
            [ContractEvent.ReadyE (keccakAbi swap)], []⟩) ∧
      (∀ res, set_ready keccakAbi sender σ swap = Except.ok res →
        ∀ id, res.state.swaps id = σ.swaps id ∨
          (σ.swaps id = Stage.PENDING ∧ res.state.swaps id = Stage.READY))) ∧
    (∀ (swap : Swap) (s : Nat) res,
      claim keccakAbi mulVerify sender now σ swap s = Except.ok res →
      ∀ id, res.state.swaps id = σ.swaps id ∨
        ((σ.swaps id = Stage.PENDING ∨ σ.swaps id = Stage.READY) ∧
          res.state.swaps id = Stage.COMPLETED)) ∧
    (∀ (swap : Swap) (s : Nat) res,
      refund keccakAbi mulVerify sender now σ swap s = Except.ok res →
      ∀ id, res.state.swaps id = σ.swaps id ∨
        ((σ.swaps id = Stage.PENDING ∨ σ.swaps id = Stage.READY) ∧
          res.state.swaps id = Stage.COMPLETED)) := by
  refine ⟨?_, ?_, ?_, ?_⟩
  · intro pkc pkr cl d n out hok id
    unfold new_swap at hok
    split at hok
    · exact Except.noConfusion hok
    split at hok
    · exact Except.noConfusion hok
    split at hok
    · exact Except.noConfusion hok
    split at hok
    next hInv => exact Except.noConfusion hok
    next hInv =>
      rw [not_not] at hInv
      obtain rfl := (Except.ok.injEq _ _).mp hok.symm
      by_cases hid : id = keccakAbi
          ⟨sender, cl, pkc, pkr, now + d, now + d * 2, msgValue, n⟩
      · right
        subst hid
        exact ⟨hInv, by simp [EthState.store]⟩
      · left
        simp [EthState.store, hid]
  · intro swap
    have hsucc : σ.swaps (keccakAbi swap) = Stage.PENDING ∧ swap.owner = sender →
        set_ready keccakAbi sender σ swap =
          Except.ok ⟨σ.store (keccakAbi swap) Stage.READY,
            [ContractEvent.ReadyE (keccakAbi swap)], []⟩ := by
      rintro ⟨h1, h2⟩
      unfold set_ready
      rw [if_neg (not_not_intro h1), if_neg (not_not_intro h2)]
    refine ⟨⟨?_, ?_⟩, hsucc, ?_⟩
    · rintro ⟨e, he⟩ hC
      rw [hsucc hC] at he
      exact Except.noConfusion he
    · intro hnC
      unfold set_ready
      by_cases h1 : σ.swaps (keccakAbi swap) = Stage.PENDING
      · rw [if_neg (not_not_intro h1)]
        by_cases h2 : swap.owner = sender
        · exact absurd ⟨h1, h2⟩ hnC
        · exact ⟨_, by rw [if_pos h2]⟩
      · exact ⟨_, by rw [if_pos h1]⟩
    · intro res hok id
      unfold set_ready at hok
      split at hok
      · exact Except.noConfusion hok
      next h1 =>
        split at hok
        · exact Except.noConfusion hok
        rw [not_not] at h1
        obtain rfl := (Except.ok.injEq _ _).mp hok.symm
        by_cases hid : id = keccakAbi swap
        · right
          subst hid
          exact ⟨h1, by simp [EthState.store]⟩
        · left
          simp [EthState.store, hid]
  · intro swap s res hok id
    unfold claim at hok
    split at hok
    next h1 => exact Except.noConfusion hok
    next h1 =>
      rw [not_not] at h1
      split at hok
      · exact Except.noConfusion hok
      split at hok
      · exact Except.noConfusion hok
      split at hok
      · exact Except.noConfusion hok
      split at hok
      · exact Except.noConfusion hok
      obtain rfl := (Except.ok.injEq _ _).mp hok.symm
      by_cases hid : id = keccakAbi swap
      · right
        subst hid
        exact ⟨(stage_not_completed_invalid_iff _).mp h1, by simp [EthState.store]⟩
      · left
        simp [EthState.store, hid]
  · intro swap s res hok id
    unfold refund at hok
    split at hok
    next h1 => exact Except.noConfusion hok
    next h1 =>
      rw [not_not] at h1
      split at hok
      · exact Except.noConfusion hok
      split at hok
      · exact Except.noConfusion hok
      split at hok
      · exact Except.noConfusion hok
      obtain rfl := (Except.ok.injEq _ _).mp hok.symm
      by_cases hid : id = keccakAbi swap
      · right
        subst hid
        exact ⟨(stage_not_completed_invalid_iff _).mp h1, by simp [EthState.store]⟩
      · left
        simp [EthState.store, hid]

/-- C6 witness: `set_ready` on a PENDING swap by its owner succeeds and
changes the stage PENDING → READY at the swap's ID, by
`stage_transitions_only`. -/
theorem stage_transitions_only_witness :
    set_ready (fun _ => 0) 1 ⟨fun _ => Stage.PENDING⟩ ⟨1, 2, 3, 4, 5, 10, 7, 8⟩ =
      Except.ok ⟨EthState.store ⟨fun _ => Stage.PENDING⟩ 0 Stage.READY,
        [ContractEvent.ReadyE 0], []⟩ :=
  ((stage_transitions_only (fun _ => 0) (fun _ _ => true) 1 0 0
      ⟨fun _ => Stage.PENDING⟩).2.1 ⟨1, 2, 3, 4, 5, 10, 7, 8⟩).2.1 ⟨rfl, rfl⟩

/-! ## Maker ("Bob") swap state: `protocol/bob/swap_state.go` -/

/-- A parsed `New` event of the escrow contract, as the Go binding's
`SwapFactoryNew` struct used by `checkContract`: the swap ID (`*big.Int`)
and the two `bytes32` keys. -/
structure NewEvent where
  swapID : Int
  claimKey : Nat
  refundKey : Nat
deriving DecidableEq, Repr

/-- The data `checkContract` reads back from the contract via
`contract.Swaps(callOpts, contractSwapID)`: the readiness flag, the two
timeouts and the escrowed value. -/
structure ContractSwapInfo where
  isReady : Bool
  timeout0 : Int
  timeout1 : Int
  value : Nat
deriving DecidableEq, Repr

/-- `checkContract` (swap_state.go:345): filter the `New` logs, scan them
from the most recent for the one whose swap ID equals ours, then check the
claim key against `keccak(our secp256k1 key)`, the refund key against
`keccak(Alice's secp256k1 key)`, and the stored value against the expected
received amount.  `logs` are the parsed `New` events in chain order;
`ourKeccak`/`theirKeccak` are `s.secp256k1Pub.Keccak256()` and
`s.aliceSecp256K1PublicKey.Keccak256()`; `expected` is
`EtherToWei(s.info.ReceivedAmount())`. -/
def checkContract (logs : List NewEvent) (contractSwapID : Int)
    (ourKeccak theirKeccak : Nat) (info : ContractSwapInfo) (expected : Nat) :
    Except String Unit :=
  if logs.isEmpty then .error "cannot find New log"
  else
    ((logs.reverse.find? fun ev => ev.swapID == contractSwapID).elim
      (.error "failed to find New event with given swap ID")
      fun event =>
        if ¬ (event.claimKey = ourKeccak) then
          .error "contract claim key is not expected"
        else if ¬ (event.refundKey = theirKeccak) then
          .error "contract refund key is not expected"
        else if info.value < expected then
          .error "contract does not have expected balance"
        else .ok ())

/-- Modelled from the spec: §4.6 requires the Maker to check that the
escrow's "timeouts [are] consistent"; with `t0 = now + Δ` and
`t1 = now + 2·Δ` (§4.3) consistency entails `t0 < t1`. -/
def timeoutsConsistent (timeout0 timeout1 : Int) : Prop :=
  timeout0 < timeout1

/-- C4 counterexample: `checkContract` accepts (returns nil) a contract
whose timeouts are inconsistent (`t1 < t0`), provided the keys match and
the value is sufficient — the claimed timeout check does not exist. -/
theorem checkContract_timeouts_counterexample :
    checkContract [⟨1, 7, 8⟩] 1 7 8 ⟨false, 10, 5, 100⟩ 100 = Except.ok () ∧
      ¬ timeoutsConsistent 10 5 :=
  ⟨rfl, by simp [timeoutsConsistent]⟩

/-- C4 (amended): `checkContract` returns nil exactly when a `New` log
with the expected swap ID is found whose claim key is the keccak of the
Maker's secp256k1 key, whose refund key is the keccak of the Taker's
secp256k1 key, and the stored value is at least the expected amount; it
never examines the stored timeouts (or the readiness flag), so the result
is unchanged by any modification of them. -/
theorem checkContract_correct (logs : List NewEvent) (contractSwapID : Int)
    (ourKeccak theirKeccak : Nat) (info : ContractSwapInfo) (expected : Nat) :
    (checkContract logs contractSwapID ourKeccak theirKeccak info expected = Except.ok () ↔
      ∃ event, (logs.reverse.find? fun ev => ev.swapID == contractSwapID) = some event ∧
        event.claimKey = ourKeccak ∧ event.refundKey = theirKeccak ∧
        expected ≤ info.value) ∧
    (∀ info' : ContractSwapInfo, info'.value = info.value →
      checkContract logs contractSwapID ourKeccak theirKeccak info' expected =
        checkContract logs contractSwapID ourKeccak theirKeccak info expected) := by
  constructor
  · constructor
    · intro hok
      unfold checkContract at hok
      split at hok
      · exact Except.noConfusion hok
      cases hfind : logs.reverse.find? fun ev => ev.swapID == contractSwapID with
      | none => rw [hfind] at hok; exact Except.noConfusion hok
      | some event =>
        rw [hfind] at hok
        rw [Option.elim_some] at hok
        split at hok
        · exact Except.noConfusion hok
        split at hok
        · exact Except.noConfusion hok
        split at hok
        · exact Except.noConfusion hok
        next h1 h2 h3 =>
          rw [not_not] at h1 h2
          exact ⟨event, rfl, h1, h2, Nat.not_lt.mp h3⟩
    · rintro ⟨event, hfind, h1, h2, h3⟩
      have hne : ¬ logs.isEmpty := by
        intro h
        rw [List.isEmpty_iff] at h
        subst h
        simp at hfind
      unfold checkContract
      rw [if_neg hne, hfind, Option.elim_some, if_neg (not_not_intro h1),
        if_neg (not_not_intro h2), if_neg (Nat.not_lt.mpr h3)]
  · intro info' hval
    unfold checkContract
    rw [hval]

/-- C4 witness: `checkContract_correct` applied at a concrete input whose
keys match: the result is nil, and replacing the timeouts leaves the
result unchanged. -/
theorem checkContract_correct_witness :
    checkContract [⟨1, 7, 8⟩] 1 7 8 ⟨true, 0, 0, 100⟩ 100 =
      checkContract [⟨1, 7, 8⟩] 1 7 8 ⟨false, 10, 5, 100⟩ 100 :=
  (checkContract_correct [⟨1, 7, 8⟩] 1 7 8 ⟨false, 10, 5, 100⟩ 100).2
    ⟨true, 0, 0, 100⟩ rfl

/-- `errPastClaimTime` (swap_state.go:36). -/
def errPastClaimTime : String := "past t1, can no longer claim"

/-- `tryClaim` (swap_state.go:256), as a function of the invocation time
and the data it consults.  Times are in seconds (`time.Second` is the
grace added to the wait).  `untilT0 := time.Until(s.t0)` and
`untilT1 := time.Until(s.t1)` are both computed at entry; the function
then sleeps `untilT0 + 1` when `untilT0 > 0` and the contract is not
ready, and only afterwards tests the entry-time `untilT1 < 0`.  The
result is the past-claim-time error, or `ok t` meaning `claimFunds()` is
invoked at time `t`. -/
def tryClaim (now timeout0 timeout1 : Int) (isReady : Bool) : Except String Int :=
  if timeout1 - now < 0 then .error errPastClaimTime
  else .ok (if 0 < timeout0 - now ∧ isReady = false
    then now + ((timeout0 - now) + 1) else now)

/-- C8 counterexample: with `t0 = 1`, `t1 = 2`, contract not ready:
invoked at `now = 2 = t1`, `tryClaim` still submits a claim (at time 2,
not before `t1`); and invoked at `now = 0 < t0`, it waits until `t0 + 1`
and then submits the claim at time `2 = t1` without re-checking `t1` —
so the Maker does submit claim transactions at/after `t1`. -/
theorem tryClaim_counterexample :
    (tryClaim 2 1 2 false = Except.ok 2 ∧ ¬ ((2 : Int) < 2)) ∧
      (tryClaim 0 1 2 false = Except.ok 2 ∧ ¬ ((2 : Int) < 2)) :=
  ⟨⟨rfl, by omega⟩, ⟨rfl, by omega⟩⟩

/-- C8 (amended): `tryClaim` returns the past-claim-time error, without
calling the contract's claim, exactly when the invocation time is
strictly after `t1`; when the invocation time is at most `t1` it submits
a claim, after first waiting until one second past `t0` whenever invoked
before `t0` with the contract not ready — the `t1` bound is only checked
against the invocation time, so the submission time may be at or after
`t1`. -/
theorem tryClaim_correct (now timeout0 timeout1 : Int) (isReady : Bool) :
    (timeout1 < now →
      tryClaim now timeout0 timeout1 isReady = Except.error errPastClaimTime) ∧
    (now ≤ timeout1 →
      tryClaim now timeout0 timeout1 isReady =
        Except.ok (if 0 < timeout0 - now ∧ isReady = false
          then now + ((timeout0 - now) + 1) else now)) := by
  constructor
  · intro h
    unfold tryClaim
    rw [if_pos (by omega)]
  · intro h
    unfold tryClaim
    rw [if_neg (by omega)]

/-- C8 witness: `tryClaim_correct` at `now = 5 > t1 = 2` yields the
past-claim-time error. -/
theorem tryClaim_correct_witness :
    tryClaim 5 1 2 true = Except.error errPastClaimTime :=
  (tryClaim_correct 5 1 2 true).1 (by omega)

/-- Modelled from the spec: the observable swap statuses of the `pswap`
(protocol/swap) package, which is not under src/.  §2: a swap "terminates
in one of {Success, Refunded, Aborted}"; `Ongoing` is the non-terminal
status a running swap carries (`pswap.Ongoing` in `newSwapState`). -/
inductive SwapStatus where
  | Ongoing
  | Success
  | Refunded
  | Aborted
deriving DecidableEq, Repr

/-- Terminal statuses per spec §2 / §4.8. -/
def SwapStatus.isTerminal : SwapStatus → Bool
  | .Ongoing => false
  | _ => true

/-- The dynamic type of `s.nextExpectedMessage` switched on by
`ProtocolExited`: `*net.SendKeysMessage`, `*net.NotifyContractDeployed`,
`*net.NotifyReady`, or anything else (the `default` arm). -/
inductive NextMessage where
  | SendKeysMsg
  | NotifyContractDeployedMsg
  | NotifyReadyMsg
  | OtherMsg
deriving DecidableEq, Repr

/-- `ProtocolExited` (swap_state.go:140), as a function of the published
status at entry, the next expected message, and the outcomes of
`tryClaim` and `tryReclaimMonero`.  Returns the status published after
the call together with whether an error is returned.  Already-terminal
Success/Refunded are returned unchanged; exits before any funds were
locked set Aborted; in the `NotifyReady` case, a successful claim returns
nil *without* touching the status, a failed claim followed by a
successful monero reclaim sets Refunded, and a failed reclaim returns the
error with the status untouched. -/
def protocolExited (status : SwapStatus) (next : NextMessage)
    (claimSucceeds reclaimSucceeds : Bool) : SwapStatus × Bool :=
  if status = .Success then (status, false)
  else if status = .Refunded then (status, false)
  else match next with
    | .SendKeysMsg => (.Aborted, true)
    | .NotifyContractDeployedMsg => (.Aborted, true)
    | .NotifyReadyMsg =>
      if claimSucceeds then (status, false)
      else if reclaimSucceeds then (.Refunded, false)
      else (status, true)
    | .OtherMsg => (.Aborted, true)

/-- C7 counterexample: the protocol stream closes while the Maker awaits
`NotifyReady` and the claim succeeds: `ProtocolExited` returns with the
published status still `Ongoing` — a non-terminal status. -/
theorem protocolExited_counterexample :
    (protocolExited .Ongoing .NotifyReadyMsg true true).1 = SwapStatus.Ongoing ∧
      SwapStatus.isTerminal (protocolExited .Ongoing .NotifyReadyMsg true true).1 = false := by
  constructor <;> rfl

/-- C7 (amended): `ProtocolExited` preserves an already-Success or
already-Refunded status; an exit while the next expected message is
SendKeys, NotifyContractDeployed or unexpected sets Aborted; an exit
while awaiting NotifyReady sets Refunded when the claim fails and the
monero reclaim succeeds, but returns with the status unchanged (possibly
non-terminal) when the claim succeeds or when both the claim and the
reclaim fail. -/
theorem protocolExited_status (status : SwapStatus) (next : NextMessage)
    (claimSucceeds reclaimSucceeds : Bool) :
    (status = .Success →
      protocolExited status next claimSucceeds reclaimSucceeds = (.Success, false)) ∧
    (status = .Refunded →
      protocolExited status next claimSucceeds reclaimSucceeds = (.Refunded, false)) ∧
    (status ≠ .Success → status ≠ .Refunded → next ≠ .NotifyReadyMsg →
      protocolExited status next claimSucceeds reclaimSucceeds = (.Aborted, true)) ∧
    (status ≠ .Success → status ≠ .Refunded → next = .NotifyReadyMsg →
      claimSucceeds = true →
      protocolExited status next claimSucceeds reclaimSucceeds = (status, false)) ∧
    (status ≠ .Success → status ≠ .Refunded → next = .NotifyReadyMsg →
      claimSucceeds = false → reclaimSucceeds = true →
      protocolExited status next claimSucceeds reclaimSucceeds = (.Refunded, false)) ∧
    (status ≠ .Success → status ≠ .Refunded → next = .NotifyReadyMsg →
      claimSucceeds = false → reclaimSucceeds = false →
      protocolExited status next claimSucceeds reclaimSucceeds = (status, true)) := by
  cases status <;> cases next <;> cases claimSucceeds <;> cases reclaimSucceeds <;>
    simp [protocolExited]

/-- C7 witness: `protocolExited_status` at a concrete early exit: stream
closes while still expecting SendKeys with the swap Ongoing, and the
published status becomes Aborted. -/
theorem protocolExited_status_witness :
    protocolExited .Ongoing .SendKeysMsg true true = (SwapStatus.Aborted, true) :=
  (protocolExited_status .Ongoing .SendKeysMsg true true).2.2.1
    (by decide) (by decide) (by decide)

/-! ## Message codec: `net/message.go`

The wire format is a tag byte followed by a JSON body.  A JSON document
is modelled as a tree (`JsonVal`); the bytes after the tag either parse
as a JSON document or do not (`MsgBody.malformed`).  Go's
`encoding/json` on the message structs is modelled field by field:
marshalling emits an object with the exact Go field names; unmarshalling
into a struct accepts `null` (leaving the zero value) or an object,
looks fields up by name (exact match first, then case-insensitive, as
`encoding/json` does), ignores unknown fields, leaves absent or `null`
fields at their zero value, and errors on a kind mismatch.
Finite `float64` values round-trip exactly through Go's JSON, so float
fields are carried as exact rationals; a `*big.Int` field is an
`Option Int` (nil marshals to `null`, otherwise a plain decimal integer
literal).  `big.Int.UnmarshalJSON` passes the raw value bytes — quotes
included — to `SetString(·, 10)`, so it accepts exactly `null` and
optionally-signed digit strings, rejecting quoted strings and number
tokens with a fraction or exponent part (`"7"`, `7.0`, `7e2`); a number
node therefore records, besides its value, whether its source token is a
plain integer literal, the one distinction among JSON number tokens that
`SetString` is sensitive to (`float64` decoding via `ParseFloat` accepts
every number token regardless). -/

/-- A parsed JSON document.  `num q intLit` is a number token with value
`q`; `intLit` is true iff the token is a plain optionally-signed digit
string, i.e. has no fraction or exponent part (so `intLit = true` forces
`q.den = 1` on tokens that occur in real byte strings). -/
inductive JsonVal where
  | null
  | bool (b : Bool)
  | num (q : ℚ) (intLit : Bool)
  | str (s : String)
  | arr (elems : List JsonVal)
  | obj (fields : List (String × JsonVal))

/-- The bytes following the tag byte: either they parse as a JSON
document, or they are malformed (`code` distinguishes malformed byte
strings). -/
inductive MsgBody where
  | json (v : JsonVal)
  | malformed (code : Nat)

/-- A byte string handed to `DecodeMessage`: empty, or a first (tag) byte
followed by the body bytes. -/
inductive WireBytes where
  | empty
  | bytes (tag : Nat) (body : MsgBody)

/-- Field lookup of `encoding/json`: an exact-name match wins, otherwise
the first case-insensitive match. -/
def lookupField (fields : List (String × JsonVal)) (name : String) : Option JsonVal :=
  match fields.find? fun p => p.1 == name with
  | some p => some p.2
  | none => (fields.find? fun p => p.1.toLower == name.toLower).map fun p => p.2

/-- Unmarshal a `string` struct field: absent or `null` leaves the zero
value `""`; a JSON string is taken; any other kind errors. -/
def getString (fields : List (String × JsonVal)) (name : String) : Except String String :=
  match lookupField fields name with
  | none => .ok ""
  | some .null => .ok ""
  | some (.str s) => .ok s
  | some _ => .error ("cannot unmarshal into string field " ++ name)

/-- Unmarshal a `float64` struct field (carried as an exact rational):
`strconv.ParseFloat` accepts every JSON number token, whatever its
textual form. -/
def getFloat (fields : List (String × JsonVal)) (name : String) : Except String ℚ :=
  match lookupField fields name with
  | none => .ok 0
  | some .null => .ok 0
  | some (.num q _) => .ok q
  | some _ => .error ("cannot unmarshal into float64 field " ++ name)

/-- Unmarshal a `*big.Int` struct field.  A literal `null` on a pointer
field leaves the nil pointer; for any other value `big.Int.UnmarshalJSON`
runs `SetString(raw bytes, 10)`, which succeeds only on an
optionally-signed digit string — a number token with a fraction or
exponent part, a quoted string (the quotes are part of the raw bytes),
or any other kind all error.  (On real tokens `intLit = true` entails
`q.den = 1`; the denominator check only guards the model's unreachable
`num q true` nodes with `q.den ≠ 1`.) -/
def getBigInt (fields : List (String × JsonVal)) (name : String) :
    Except String (Option Int) :=
  match lookupField fields name with
  | none => .ok none
  | some .null => .ok none
  | some (.num q true) => if q.den = 1 then .ok (some q.num)
      else .error ("cannot unmarshal into big.Int field " ++ name)
  | some _ => .error ("cannot unmarshal into big.Int field " ++ name)

/-- Modelled from the spec: `types.Offer` (package common/types) is not
under src/.  §4.4 lists `QueryResponse{offers}`; per the offer book an
offer carries its ID, the provided coin, minimum and maximum amounts and
an exchange rate (§8 scenario 1, `MakeOfferRequest`). -/
structure Offer where
  ID : String
  Provides : String
  MinimumAmount : ℚ
  MaximumAmount : ℚ
  ExchangeRate : ℚ
deriving DecidableEq, Repr

/-- Whether Go's `encoding/json` float encoder renders a `float64` value
as a plain integer literal: it uses fixed-point (`'f'`) format for
decimal exponents below 21 and exponent (`'e'`) format otherwise, so the
token is a bare digit string exactly for integral values of magnitude
below `10^21`. -/
def floatTokenIsInt (q : ℚ) : Bool :=
  q.den = 1 && q.num.natAbs < 10 ^ 21

/-- `json.Marshal` of an `Offer`. -/
def marshalOffer (o : Offer) : JsonVal :=
  .obj [("ID", .str o.ID), ("Provides", .str o.Provides),
    ("MinimumAmount", .num o.MinimumAmount (floatTokenIsInt o.MinimumAmount)),
    ("MaximumAmount", .num o.MaximumAmount (floatTokenIsInt o.MaximumAmount)),
    ("ExchangeRate", .num o.ExchangeRate (floatTokenIsInt o.ExchangeRate))]

/-- `json.Unmarshal` into a `*Offer` slice element: `null` is a nil
pointer, an object is decoded field-wise. -/
def unmarshalOfferElem (v : JsonVal) : Except String (Option Offer) :=
  match v with
  | .null => .ok none
  | .obj fs => do
    let id ← getString fs "ID"
    let pr ← getString fs "Provides"
    let mi ← getFloat fs "MinimumAmount"
    let ma ← getFloat fs "MaximumAmount"
    let ex ← getFloat fs "ExchangeRate"
    .ok (some ⟨id, pr, mi, ma, ex⟩)
  | _ => .error "cannot unmarshal into Offer"

/-- `QueryResponse{ Offers []*types.Offer }`.  The outer `Option` is Go's
nil slice (marshals to `null`); an inner `none` is a nil pointer. -/
structure QueryResponse where
  Offers : Option (List (Option Offer))
deriving DecidableEq, Repr

def marshalQueryResponse (m : QueryResponse) : JsonVal :=
  .obj [("Offers",
    match m.Offers with
    | none => .null
    | some xs => .arr (xs.map fun x =>
        match x with
        | none => .null
        | some o => marshalOffer o))]

/-- Unmarshal a `[]*types.Offer` field value. -/
def unmarshalOfferList (v : JsonVal) : Except String (Option (List (Option Offer))) :=
  match v with
  | .null => .ok none
  | .arr xs => do
    let offers ← xs.mapM unmarshalOfferElem
    .ok (some offers)
  | _ => .error "cannot unmarshal into Offers slice"

def unmarshalQueryResponse (v : JsonVal) : Except String (Option QueryResponse) :=
  match v with
  | .null => .ok none
  | .obj fs =>
    match lookupField fs "Offers" with
    | none => .ok (some ⟨none⟩)
    | some w => do
      let offers ← unmarshalOfferList w
      .ok (some ⟨offers⟩)
  | _ => .error "cannot unmarshal into QueryResponse"

/-- `SendKeysMessage` (net/message.go). -/
structure SendKeysMessage where
  OfferID : String
  ProvidedAmount : ℚ
  PublicSpendKey : String
  PublicViewKey : String
  PrivateViewKey : String
  DLEqProof : String
  Secp256k1PublicKey : String
  EthAddress : String
deriving DecidableEq, Repr

def marshalSendKeysMessage (m : SendKeysMessage) : JsonVal :=
  .obj [("OfferID", .str m.OfferID),
    ("ProvidedAmount", .num m.ProvidedAmount (floatTokenIsInt m.ProvidedAmount)),
    ("PublicSpendKey", .str m.PublicSpendKey), ("PublicViewKey", .str m.PublicViewKey),
    ("PrivateViewKey", .str m.PrivateViewKey), ("DLEqProof", .str m.DLEqProof),
    ("Secp256k1PublicKey", .str m.Secp256k1PublicKey), ("EthAddress", .str m.EthAddress)]

def unmarshalSendKeysMessage (v : JsonVal) : Except String (Option SendKeysMessage) :=
  match v with
  | .null => .ok none
  | .obj fs => do
    let offerID ← getString fs "OfferID"
    let amt ← getFloat fs "ProvidedAmount"
    let pubSpend ← getString fs "PublicSpendKey"
    let pubView ← getString fs "PublicViewKey"
    let privView ← getString fs "PrivateViewKey"
    let dleq ← getString fs "DLEqProof"
    let secp ← getString fs "Secp256k1PublicKey"
    let ethAddr ← getString fs "EthAddress"
    .ok (some ⟨offerID, amt, pubSpend, pubView, privView, dleq, secp, ethAddr⟩)
  | _ => .error "cannot unmarshal into SendKeysMessage"

/-- `NotifyContractDeployed{ Address string; ContractSwapID *big.Int }`. -/
structure NotifyContractDeployed where
  Address : String
  ContractSwapID : Option Int
deriving DecidableEq, Repr

def marshalNotifyContractDeployed (m : NotifyContractDeployed) : JsonVal :=
  .obj [("Address", .str m.Address),
    -- big.Int.MarshalJSON emits the plain decimal digits of the value
    ("ContractSwapID",
      match m.ContractSwapID with
      | none => .null
      | some i => .num i true)]

def unmarshalNotifyContractDeployed (v : JsonVal) :
    Except String (Option NotifyContractDeployed) :=
  match v with
  | .null => .ok none
  | .obj fs => do
    let addr ← getString fs "Address"
    let swapID ← getBigInt fs "ContractSwapID"
    .ok (some ⟨addr, swapID⟩)
  | _ => .error "cannot unmarshal into NotifyContractDeployed"

/-- `NotifyXMRLock{ Address string }`. -/
structure NotifyXMRLock where
  Address : String
deriving DecidableEq, Repr

def marshalNotifyXMRLock (m : NotifyXMRLock) : JsonVal :=
  .obj [("Address", .str m.Address)]

def unmarshalNotifyXMRLock (v : JsonVal) : Except String (Option NotifyXMRLock) :=
  match v with
  | .null => .ok none
  | .obj fs => do
    let addr ← getString fs "Address"
    .ok (some ⟨addr⟩)
  | _ => .error "cannot unmarshal into NotifyXMRLock"

/-- `NotifyReady{}`. -/
structure NotifyReady where
deriving DecidableEq, Repr

def marshalNotifyReady (_ : NotifyReady) : JsonVal := .obj []

def unmarshalNotifyReady (v : JsonVal) : Except String (Option NotifyReady) :=
  match v with
  | .null => .ok none
  | .obj _ => .ok (some ⟨⟩)
  | _ => .error "cannot unmarshal into NotifyReady"

/-- `NotifyClaimed{ TxHash string }`. -/
structure NotifyClaimed where
  TxHash : String
deriving DecidableEq, Repr

def marshalNotifyClaimed (m : NotifyClaimed) : JsonVal :=
  .obj [("TxHash", .str m.TxHash)]

def unmarshalNotifyClaimed (v : JsonVal) : Except String (Option NotifyClaimed) :=
  match v with
  | .null => .ok none
  | .obj fs => do
    let tx ← getString fs "TxHash"
    .ok (some ⟨tx⟩)
  | _ => .error "cannot unmarshal into NotifyClaimed"

/-- `NotifyRefund{ TxHash string }`. -/
structure NotifyRefund where
  TxHash : String
deriving DecidableEq, Repr

def marshalNotifyRefund (m : NotifyRefund) : JsonVal :=
  .obj [("TxHash", .str m.TxHash)]

/-- The message tag constants (`Type` in net/message.go). -/
def QueryResponseType : Nat := 0
def SendKeysType : Nat := 1
def NotifyContractDeployedType : Nat := 2
def NotifyXMRLockType : Nat := 3
def NotifyReadyType : Nat := 4
def NotifyClaimedType : Nat := 5
def NotifyRefundType : Nat := 6

/-- A decoded `net.Message`.  `nilPointer t` is the typed-nil pointer the
Go decoder returns (with a nil error) when the JSON body is `null`. -/
inductive NetMessage where
  | queryResponse (m : QueryResponse)
  | sendKeys (m : SendKeysMessage)
  | notifyContractDeployed (m : NotifyContractDeployed)
  | notifyXMRLock (m : NotifyXMRLock)
  | notifyReady (m : NotifyReady)
  | notifyClaimed (m : NotifyClaimed)
  | notifyRefund (m : NotifyRefund)
  | nilPointer (tag : Nat)
deriving DecidableEq, Repr

/-- The `Encode` methods: a tag byte prepended to `json.Marshal` of the
struct (for a nil pointer, `json.Marshal` yields `null`). -/
def encodeMessage : NetMessage → WireBytes
  | .queryResponse m => .bytes QueryResponseType (.json (marshalQueryResponse m))
  | .sendKeys m => .bytes SendKeysType (.json (marshalSendKeysMessage m))
  | .notifyContractDeployed m =>
    .bytes NotifyContractDeployedType (.json (marshalNotifyContractDeployed m))
  | .notifyXMRLock m => .bytes NotifyXMRLockType (.json (marshalNotifyXMRLock m))
  | .notifyReady m => .bytes NotifyReadyType (.json (marshalNotifyReady m))
  | .notifyClaimed m => .bytes NotifyClaimedType (.json (marshalNotifyClaimed m))
  | .notifyRefund m => .bytes NotifyRefundType (.json (marshalNotifyRefund m))
  | .nilPointer t => .bytes t (.json .null)

/-- Run a struct unmarshaller on the body bytes: malformed bytes are a
JSON syntax error. -/
def unmarshalBody {α : Type} (f : JsonVal → Except String α) :
    MsgBody → Except String α
  | .malformed _ => .error "invalid character in JSON body"
  | .json v => f v

/-- `DecodeMessage` (net/message.go:457): empty input errors; otherwise
dispatch on the tag byte — QueryResponse, SendKeys,
NotifyContractDeployed, NotifyXMRLock, NotifyReady and NotifyClaimed are
handled, every other tag (including `NotifyRefundType`, for which the
source has no case) hits the default arm and errors. -/
def DecodeMessage : WireBytes → Except String NetMessage
  | .empty => .error "invalid message bytes"
  | .bytes tag body =>
    if tag = QueryResponseType then
      (unmarshalBody unmarshalQueryResponse body).map fun r =>
        match r with
        | none => .nilPointer QueryResponseType
        | some m => .queryResponse m
    else if tag = SendKeysType then
      (unmarshalBody unmarshalSendKeysMessage body).map fun r =>
        match r with
        | none => .nilPointer SendKeysType
        | some m => .sendKeys m
    else if tag = NotifyContractDeployedType then
      (unmarshalBody unmarshalNotifyContractDeployed body).map fun r =>
        match r with
        | none => .nilPointer NotifyContractDeployedType
        | some m => .notifyContractDeployed m
    else if tag = NotifyXMRLockType then
      (unmarshalBody unmarshalNotifyXMRLock body).map fun r =>
        match r with
        | none => .nilPointer NotifyXMRLockType
        | some m => .notifyXMRLock m
    else if tag = NotifyReadyType then
      (unmarshalBody unmarshalNotifyReady body).map fun r =>
        match r with
        | none => .nilPointer NotifyReadyType
        | some m => .notifyReady m
    else if tag = NotifyClaimedType then
      (unmarshalBody unmarshalNotifyClaimed body).map fun r =>
        match r with
        | none => .nilPointer NotifyClaimedType
        | some m => .notifyClaimed m
    else .error "invalid message type"

/-- C3: encode-then-decode does NOT yield the original message for every
message type: `DecodeMessage` has no case for `NotifyRefundType`, so the
bytes produced by encoding a `NotifyRefund` decode to the
invalid-message-type error — while e.g. an encoded `NotifyClaimed` (same
shape, tag 5) round-trips fine. -/
theorem decode_encode_notifyRefund_fails :
    DecodeMessage (encodeMessage (.notifyRefund ⟨"0xabcd"⟩)) =
        Except.error "invalid message type" ∧
      DecodeMessage (encodeMessage (.notifyClaimed ⟨"0xabcd"⟩)) =
        Except.ok (.notifyClaimed ⟨"0xabcd"⟩) :=
  ⟨rfl, rfl⟩

end AtomicSwap
